import Mathlib

/-!
A verification development for the Ape language core: a lexer, a
recursive-descent parser with precedence climbing, an AST, a bytecode
compiler and a stack-based virtual machine, all contained in one C++
source file. Every definition below is a direct translation of the
corresponding C++ function; divergences forced by the embedding
(C++ undefined behaviour, IEEE doubles) are noted next to the
definition they concern.

Modelling conventions:
- 64-bit signed integers (long long) are modelled as unbounded Int;
  signed overflow, which is undefined behaviour in C++, is not modelled.
- IEEE-754 doubles are modelled as exact rationals (Rat). Rounding,
  infinities and NaN are not modelled; no theorem below depends on the
  numeric value of a float produced by float arithmetic, only on the
  kind tag of the result, except where the exact rational value
  coincides with the double value (small integers).
- Reads that are undefined behaviour in C++ (vector::back on an empty
  vector, operator[] out of range, % by zero) are modelled by the
  distinguished VM outcome VMRes.ub.
- The bytecode byte stream is modelled at instruction granularity: one
  Instr per opcode together with its decoded immediate operands. The
  C++ byte encoding is an injective function of this instruction list
  (opcode byte followed by fixed-width or length-prefixed immediates),
  and the C++ program contains no jumps, so the instruction pointer
  advances one instruction at a time in both presentations.
-/

namespace Ape

/-! ## Lexer: TokenKind enum and Token record, from the C++ TokenKind / Token -/

inductive TokenKind where
  | End
  | Ident
  | BoolLiteral
  | CharLiteral
  | StringLiteral
  | NumberLiteral
  | FloatLiteral
  | LParen | RParen | LBrace | RBrace | LAngle | RAngle
  | Comma | Colon | Semicolon | Arrow | EqEq | Eq | NotEq
  | Plus | Minus | Star | Slash | Percent
  | Less | LessEq | Greater | GreaterEq
  | And | Or | Dot
  | KW_type | KW_func | KW_if | KW_then | KW_else | KW_fi
  | KW_case | KW_of | KW_others | KW_fo
  | KW_int | KW_bool | KW_char | KW_string
  | Unknown
deriving DecidableEq, Repr

structure Token where
  kind : TokenKind
  text : String
deriving DecidableEq, Repr

/-- C isalpha over the source character set (ASCII letters). -/
def isalpha (c : Char) : Bool := c.isAlpha

/-- C isdigit. -/
def isdigit (c : Char) : Bool := c.isDigit

/-- C isalnum. -/
def isalnum (c : Char) : Bool := c.isAlpha || c.isDigit

/-- Lexer::skip_ws: skip spaces, tabs, carriage returns, newlines and
line comments introduced by two slashes. The C++ inner comment loop
(advance to the newline, which the outer loop then consumes as
whitespace) is the inComment mode of this single structural recursion;
the net characters consumed are identical. -/
def skip_ws_aux : Bool → List Char → List Char
  | _, [] => []
  | true, c :: rest =>
    if c = '\n' then skip_ws_aux false rest else skip_ws_aux true rest
  | false, c :: rest =>
    if c = ' ' || c = '\t' || c = '\r' || c = '\n' then skip_ws_aux false rest
    else if c = '/' then
      match rest with
      | '/' :: rest2 => skip_ws_aux true rest2
      | _ => c :: rest
    else c :: rest

def skip_ws (l : List Char) : List Char := skip_ws_aux false l

/-- The body loop of the string-literal case of Lexer::next: collect
characters until a closing double quote or end of input, copying
backslash escapes through unprocessed. Returns the collected characters
and the rest of the input, positioned at the closing quote if any. -/
def strBody : List Char → (List Char × List Char)
  | [] => ([], [])
  | c :: rest =>
    if c = '"' then ([], c :: rest)
    else if c = '\\' then
      match rest with
      | [] => (['\\'], [])
      | d :: rest2 =>
        let (o, r) := strBody rest2
        ('\\' :: d :: o, r)
    else
      let (o, r) := strBody rest
      (c :: o, r)

/-- Consume a single expected closing quote character if present
(the two `if (peek() == q) get();` lines in Lexer::next). -/
def consumeQuote (q : Char) : List Char → List Char
  | [] => []
  | c :: rest => if c = q then rest else c :: rest

/-- The keyword table built in the Lexer constructor (an unordered_map,
modelled as the lookup function it denotes). -/
def keywordKind (s : String) : Option TokenKind :=
  if s = "type" then some .KW_type
  else if s = "func" then some .KW_func
  else if s = "if" then some .KW_if
  else if s = "then" then some .KW_then
  else if s = "else" then some .KW_else
  else if s = "fi" then some .KW_fi
  else if s = "case" then some .KW_case
  else if s = "of" then some .KW_of
  else if s = "others" then some .KW_others
  else if s = "fo" then some .KW_fo
  else if s = "int" then some .KW_int
  else if s = "bool" then some .KW_bool
  else if s = "char" then some .KW_char
  else if s = "string" then some .KW_string
  else none

/-- The exponent part of the number case of Lexer::next: an optional
e or E, an optional sign, then digits. Returns the consumed characters,
the rest, and whether an exponent was consumed (making the literal a
float). -/
def expPart : List Char → (List Char × List Char × Bool)
  | [] => ([], [], false)
  | c :: rest =>
    if c = 'e' || c = 'E' then
      match rest with
      | [] => ([c], [], true)
      | s :: r2 =>
        if s = '+' || s = '-' then
          (c :: s :: r2.takeWhile isdigit, r2.dropWhile isdigit, true)
        else
          (c :: rest.takeWhile isdigit, rest.dropWhile isdigit, true)
    else ([], c :: rest, false)

/-- The number case of Lexer::next: the first character c has been
consumed; read the remaining digits, an optional fraction and an
optional exponent. -/
def lexNumber (c : Char) (rest : List Char) : Token × List Char :=
  let ds := rest.takeWhile isdigit
  let r1 := rest.dropWhile isdigit
  match r1 with
  | '.' :: r2 =>
    let fs := r2.takeWhile isdigit
    let r3 := r2.dropWhile isdigit
    let (es, r4, _) := expPart r3
    ({ kind := .FloatLiteral, text := String.mk (c :: ds ++ '.' :: fs ++ es) }, r4)
  | _ =>
    let (es, r4, sawExp) := expPart r1
    if sawExp then
      ({ kind := .FloatLiteral, text := String.mk (c :: ds ++ es) }, r4)
    else
      ({ kind := .NumberLiteral, text := String.mk (c :: ds) }, r4)

/-- The identifier / keyword / bool-literal case of Lexer::next. -/
def lexIdent (c : Char) (rest : List Char) : Token × List Char :=
  let s := String.mk (c :: rest.takeWhile (fun d => isalnum d || d = '_'))
  let r := rest.dropWhile (fun d => isalnum d || d = '_')
  match keywordKind s with
  | some k => ({ kind := k, text := s }, r)
  | none =>
    if s = "true" || s = "false" then ({ kind := .BoolLiteral, text := s }, r)
    else ({ kind := .Ident, text := s }, r)

/-- The char-literal case of Lexer::next (opening quote consumed). -/
def lexChar (rest : List Char) : Token × List Char :=
  match rest with
  | '\\' :: e :: r2 =>
    ({ kind := .CharLiteral, text := String.mk ['\\', e] }, consumeQuote '\'' r2)
  | '\\' :: [] =>
    ({ kind := .CharLiteral, text := String.mk ['\\', Char.ofNat 0] }, [])
  | c2 :: r2 =>
    if c2 = '\'' then ({ kind := .CharLiteral, text := "" }, r2)
    else ({ kind := .CharLiteral, text := String.mk [c2] }, consumeQuote '\'' r2)
  | [] => ({ kind := .CharLiteral, text := "" }, [])

/-- Lexer::next: skip whitespace, then produce one token and the rest of
the input. The switch on the first character checks the two-character
sequences for minus-greater, equal-equal and bang-equal, but the cases
for the less-than and greater-than characters return immediately, so
LessEq and GreaterEq tokens are never produced. -/
def lexNext (cs0 : List Char) : Token × List Char :=
  match skip_ws cs0 with
  | [] => ({ kind := .End, text := "" }, [])
  | '(' :: rest => ({ kind := .LParen, text := "(" }, rest)
  | ')' :: rest => ({ kind := .RParen, text := ")" }, rest)
  | '\x7b' :: rest => ({ kind := .LBrace, text := "\x7b" }, rest)
  | '\x7d' :: rest => ({ kind := .RBrace, text := "\x7d" }, rest)
  | '<' :: rest => ({ kind := .Less, text := "<" }, rest)
  | '>' :: rest => ({ kind := .Greater, text := ">" }, rest)
  | ',' :: rest => ({ kind := .Comma, text := "," }, rest)
  | ':' :: rest => ({ kind := .Colon, text := ":" }, rest)
  | ';' :: rest => ({ kind := .Semicolon, text := ";" }, rest)
  | '.' :: rest =>
    if (rest.headD ' ').isDigit then lexNumber '.' rest
    else ({ kind := .Dot, text := "." }, rest)
  | '+' :: rest => ({ kind := .Plus, text := "+" }, rest)
  | '-' :: '>' :: rest => ({ kind := .Arrow, text := "->" }, rest)
  | '-' :: rest => ({ kind := .Minus, text := "-" }, rest)
  | '*' :: rest => ({ kind := .Star, text := "*" }, rest)
  | '/' :: rest => ({ kind := .Slash, text := "/" }, rest)
  | '%' :: rest => ({ kind := .Percent, text := "%" }, rest)
  | '&' :: rest => ({ kind := .And, text := "&" }, rest)
  | '|' :: rest => ({ kind := .Or, text := "|" }, rest)
  | '=' :: '=' :: rest => ({ kind := .EqEq, text := "==" }, rest)
  | '=' :: rest => ({ kind := .Eq, text := "=" }, rest)
  | '!' :: '=' :: rest => ({ kind := .NotEq, text := "!=" }, rest)
  | '!' :: rest => ({ kind := .Unknown, text := "!" }, rest)
  | '\'' :: rest => lexChar rest
  | '"' :: rest =>
    let (o, r) := strBody rest
    ({ kind := .StringLiteral, text := String.mk o }, consumeQuote '"' r)
  | c :: rest =>
    if isalpha c || c = '_' then lexIdent c rest
    else if isdigit c then lexNumber c rest
    else ({ kind := .Unknown, text := String.mk [c] }, rest)

/-- Run the lexer to completion, producing the token sequence the parser
consumes (the C++ parser pulls tokens lazily, one per next() call; the
End token is represented by the end of the list). -/
def tokenize : Nat → List Char → List Token
  | 0, _ => []
  | fuel + 1, cs =>
    let (t, rest) := lexNext cs
    if t.kind = .End then []
    else t :: tokenize fuel rest

/-- Tokenize a whole source string; fuel one larger than the length
suffices because every token other than End consumes at least one
character. -/
def tokens (s : String) : List Token := tokenize (s.length + 1) s.toList

/-! ## AST, from the C++ TypeExpr / Expr hierarchy / FuncDecl / Program.
The C++ LiteralExpr carries a kind tag and one field per payload; the
four combinations are flattened into four constructors here. -/

structure TypeExpr where
  name : String
deriving DecidableEq, Repr

inductive Expr where
  | LitInt (i : Int)
  | LitFloat (f : Rat)
  | LitBool (b : Bool)
  | LitString (s : String)
  | Ident (name : String)
  | Unary (op : String) (rhs : Expr)
  | Binary (op : String) (lhs rhs : Expr)
  | If (cond thenB elseB : Expr)
  | Call (callee : String) (args : List Expr)
deriving Repr

structure FuncDecl where
  name : String
  params : List (String × TypeExpr)
  retType : TypeExpr
  body : Expr
deriving Repr

structure Program where
  funcs : List FuncDecl
deriving Repr

/-! ## Parser, from the C++ Parser struct. The C++ parser holds the
current token and pulls the next from the lexer on demand; here the
token list produced by the lexer is threaded through, the head of the
list being the current token and the empty list standing for the End
token. The C++ recursion has no structural termination measure visible
to Lean, so every parsing function consumes explicit fuel; running out
of fuel is an error outcome that concrete inputs never reach. -/

/-- The current token (cur in the C++ parser); End once input is
exhausted. -/
def curTok (ts : List Token) : Token := ts.headD { kind := .End, text := "" }

def curKind (ts : List Token) : TokenKind := (curTok ts).kind

def curText (ts : List Token) : String := (curTok ts).text

/-- Parser::expect: require the current token kind and advance. -/
def expect (k : TokenKind) (err : String) (ts : List Token) :
    Except String (List Token) :=
  if curKind ts = k then .ok ts.tail else .error err

/-- Parser::get_precedence: binding strength of a binary-operator token,
minus one for a token that is not a binary operator. -/
def get_precedence (t : Token) : Int :=
  if t.kind = .Star || t.kind = .Slash || t.kind = .Percent then 70
  else if t.kind = .Plus || t.kind = .Minus then 60
  else if t.kind = .Less || t.kind = .LessEq || t.kind = .Greater
      || t.kind = .GreaterEq then 50
  else if t.kind = .EqEq || t.kind = .NotEq || t.kind = .Eq then 40
  else if t.kind = .And then 30
  else if t.kind = .Or then 20
  else if t.text = "==" || t.text = "=" then 40
  else if t.text = "<" || t.text = ">" || t.text = "<=" || t.text = ">=" then 50
  else -1

/-- Sum of a digit string as a natural number. -/
def digitsVal (l : List Char) : Nat :=
  l.foldl (fun acc c => acc * 10 + (c.toNat - 48)) 0

/-- The C++ number parse stoll, applied only to the all-digit texts the
lexer produces for NumberLiteral tokens. -/
def stoll (s : String) : Int := (digitsVal s.toList : Int)

/-- Scale a rational by a signed power of ten. -/
def applyExp (q : Rat) : List Char → Rat
  | c :: rest =>
    if c = 'e' || c = 'E' then
      match rest with
      | '+' :: r2 => q * (10 : Rat) ^ digitsVal (r2.takeWhile isdigit)
      | '-' :: r2 => q / (10 : Rat) ^ digitsVal (r2.takeWhile isdigit)
      | r2 => q * (10 : Rat) ^ digitsVal (r2.takeWhile isdigit)
    else q
  | [] => q

/-- The C++ float parse stod, modelled as exact decimal-to-rational
conversion; stod rounds to the nearest double, which is not modelled
(no theorem below depends on a float literal value). -/
def stod (s : String) : Rat :=
  let cs := s.toList
  let ip := cs.takeWhile isdigit
  let r1 := cs.dropWhile isdigit
  match r1 with
  | '.' :: r2 =>
    let fp := r2.takeWhile isdigit
    let r3 := r2.dropWhile isdigit
    applyExp ((digitsVal ip : Rat) + (digitsVal fp : Rat) / (10 : Rat) ^ fp.length) r3
  | _ => applyExp (digitsVal ip : Rat) r1

/-- Parser::parse_type_expr. -/
def parse_type_expr (ts : List Token) : Except String (TypeExpr × List Token) :=
  if curKind ts = .KW_int then .ok ({ name := "int" }, ts.tail)
  else if curKind ts = .KW_bool then .ok ({ name := "bool" }, ts.tail)
  else if curKind ts = .KW_char then .ok ({ name := "char" }, ts.tail)
  else if curKind ts = .KW_string then .ok ({ name := "string" }, ts.tail)
  else if curKind ts = .Ident then .ok ({ name := curText ts }, ts.tail)
  else .error "type expression expected"

mutual

/-- Parser::parse_expr. -/
def parse_expr : Nat → List Token → Except String (Expr × List Token)
  | 0, _ => .error "parser fuel exhausted"
  | fuel + 1, ts => parse_binary_or fuel ts

/-- Parser::parse_binary_or: a unary operand followed by the
precedence-climbing loop started at minimum precedence 0. -/
def parse_binary_or : Nat → List Token → Except String (Expr × List Token)
  | 0, _ => .error "parser fuel exhausted"
  | fuel + 1, ts => do
    let (lhs, ts1) ← parse_unary fuel ts
    parse_binary_and_rhs fuel lhs 0 ts1

/-- Parser::parse_binary_and_rhs: the precedence-climbing loop. While
the current token is an operator of precedence at least min_prec,
consume it, parse a unary right operand, let tighter-binding operators
recurse into the right operand, and fold the result into a left-leaning
tree. -/
def parse_binary_and_rhs : Nat → Expr → Int → List Token →
    Except String (Expr × List Token)
  | 0, _, _, _ => .error "parser fuel exhausted"
  | fuel + 1, lhs, min_prec, ts =>
    let prec := get_precedence (curTok ts)
    if prec < min_prec then .ok (lhs, ts)
    else do
      let op := curText ts
      let (rhs0, ts2) ← parse_unary fuel ts.tail
      let next_prec := get_precedence (curTok ts2)
      let (rhs, ts3) ←
        if prec < next_prec then parse_binary_and_rhs fuel rhs0 (prec + 1) ts2
        else pure (rhs0, ts2)
      parse_binary_and_rhs fuel (Expr.Binary op lhs rhs) min_prec ts3

/-- Parser::parse_unary: a minus token or a bang (which the lexer emits
as an Unknown token with text bang) applied to a unary operand, else a
primary. -/
def parse_unary : Nat → List Token → Except String (Expr × List Token)
  | 0, _ => .error "parser fuel exhausted"
  | fuel + 1, ts =>
    if curKind ts = .Minus then do
      let (e, ts1) ← parse_unary fuel ts.tail
      pure (Expr.Unary "-" e, ts1)
    else if curText ts = "!" then do
      let (e, ts1) ← parse_unary fuel ts.tail
      pure (Expr.Unary "!" e, ts1)
    else parse_primary fuel ts

/-- Parser::parse_primary: literals, an identifier or call, a
parenthesized expression, or an if expression. -/
def parse_primary : Nat → List Token → Except String (Expr × List Token)
  | 0, _ => .error "parser fuel exhausted"
  | fuel + 1, ts =>
    if curKind ts = .NumberLiteral then
      .ok (Expr.LitInt (stoll (curText ts)), ts.tail)
    else if curKind ts = .FloatLiteral then
      .ok (Expr.LitFloat (stod (curText ts)), ts.tail)
    else if curKind ts = .BoolLiteral then
      .ok (Expr.LitBool (curText ts = "true"), ts.tail)
    else if curKind ts = .StringLiteral then
      .ok (Expr.LitString (curText ts), ts.tail)
    else if curKind ts = .Ident then
      let id := curText ts
      let ts1 := ts.tail
      if curKind ts1 = .LParen then
        let ts2 := ts1.tail
        if curKind ts2 = .RParen then
          .ok (Expr.Call id [], ts2.tail)
        else do
          let (args, ts3) ← parse_args fuel ts2
          let ts4 ← expect .RParen "unexpected token" ts3
          pure (Expr.Call id args, ts4)
      else .ok (Expr.Ident id, ts1)
    else if curKind ts = .LParen then do
      let (e, ts1) ← parse_expr fuel ts.tail
      let ts2 ← expect .RParen "unexpected token" ts1
      pure (e, ts2)
    else if curKind ts = .KW_if then parse_if fuel ts
    else .error "unexpected primary at parse"

/-- The argument loop of the call case of Parser::parse_primary. -/
def parse_args : Nat → List Token → Except String (List Expr × List Token)
  | 0, _ => .error "parser fuel exhausted"
  | fuel + 1, ts => do
    let (e, ts1) ← parse_expr fuel ts
    if curKind ts1 = .Comma then do
      let (es, ts2) ← parse_args fuel ts1.tail
      pure (e :: es, ts2)
    else pure ([e], ts1)

/-- Parser::parse_if. -/
def parse_if : Nat → List Token → Except String (Expr × List Token)
  | 0, _ => .error "parser fuel exhausted"
  | fuel + 1, ts => do
    let ts1 ← expect .KW_if "unexpected token" ts
    let (cond, ts2) ← parse_expr fuel ts1
    let ts3 ← expect .KW_then "unexpected token" ts2
    let (thenB, ts4) ← parse_expr fuel ts3
    let ts5 ← expect .KW_else "unexpected token" ts4
    let (elseB, ts6) ← parse_expr fuel ts5
    let ts7 ← expect .KW_fi "unexpected token" ts6
    pure (Expr.If cond thenB elseB, ts7)

end

/-- The parameter loop of Parser::parse_func. -/
def parse_params : Nat → List Token →
    Except String (List (String × TypeExpr) × List Token)
  | 0, _ => .error "parser fuel exhausted"
  | fuel + 1, ts =>
    if curKind ts ≠ .Ident then .error "param name expected"
    else do
      let pname := curText ts
      let ts1 ← expect .Colon "unexpected token" ts.tail
      let (t, ts2) ← parse_type_expr ts1
      if curKind ts2 = .Comma then do
        let (ps, ts3) ← parse_params fuel ts2.tail
        pure ((pname, t) :: ps, ts3)
      else pure ([(pname, t)], ts2)

/-- Parser::parse_func. -/
def parse_func (fuel : Nat) (ts : List Token) :
    Except String (FuncDecl × List Token) := do
  let ts1 ← expect .KW_func "unexpected token" ts
  if curKind ts1 ≠ .Ident then .error "func name expected"
  else do
    let fname := curText ts1
    let ts2 := ts1.tail
    let (params, ts3) ←
      if curKind ts2 = .LParen then
        let ts2a := ts2.tail
        if curKind ts2a = .RParen then pure (([] : List (String × TypeExpr)), ts2a.tail)
        else do
          let (ps, ts2b) ← parse_params fuel ts2a
          let ts2c ← expect .RParen "unexpected token" ts2b
          pure (ps, ts2c)
      else pure (([] : List (String × TypeExpr)), ts2)
    let ts4 ← expect .Colon "unexpected token" ts3
    let (ret, ts5) ← parse_type_expr ts4
    let ts6 ← expect .EqEq "unexpected token" ts5
    let (body, ts7) ← parse_expr fuel ts6
    pure ({ name := fname, params := params, retType := ret, body := body }, ts7)

/-- The declaration loop of Parser::parse_program: a func declaration,
or a bare expression wrapped as an anonymous function named main with
declared return type int. -/
def parse_decls : Nat → List Token → Except String (List FuncDecl)
  | 0, _ => .error "parser fuel exhausted"
  | fuel + 1, ts =>
    if curKind ts = .End then .ok []
    else if curKind ts = .KW_func then do
      let (f, ts1) ← parse_func fuel ts
      let fs ← parse_decls fuel ts1
      pure (f :: fs)
    else do
      let (e, ts1) ← parse_expr fuel ts
      let fs ← parse_decls fuel ts1
      pure ({ name := "main", params := [], retType := { name := "int" },
              body := e } :: fs)

/-- Parser::parse_program. -/
def parse_program (fuel : Nat) (ts : List Token) : Except String Program :=
  (parse_decls fuel ts).map Program.mk

/-! ## Bytecode and runtime values, from the C++ OpCode / Value /
FunctionBytecode. Each Instr is one opcode together with its decoded
immediate operands; the C++ byte stream is this list under the fixed
encoding (1 opcode byte, 8-byte integers, 8-byte doubles, 1-byte
booleans, 4-byte-length-prefixed strings). -/

inductive Instr where
  | HALT
  | PUSH_INT (v : Int)
  | PUSH_FLOAT (f : Rat)
  | PUSH_BOOL (b : Bool)
  | PUSH_STRING (s : String)
  | LOAD_LOCAL (idx : Nat)
  | STORE_LOCAL (idx : Nat)
  | ADD | SUB | MUL | DIV | MOD
  | NEG | NOT
  | EQ_OP | NE_OP | LT_OP | LE_OP | GT_OP | GE_OP
  | AND_OP | OR_OP
  | CALL (fname : String) (nargs : Nat)
  | RET
  | POP
deriving DecidableEq, Repr

/-- The C++ Value struct is a kind tag plus one field per payload; the
make_int / make_float / make_bool / make_string constructors set only
their own field, every other field keeping its zero default. The five
kind/payload combinations those constructors can produce are the five
constructors here; the zero defaults of the unset fields are recovered
by the field accessors below. -/
inductive Value where
  | VInt (i : Int)
  | VFloat (f : Rat)
  | VBool (b : Bool)
  | VString (s : String)
  | VNone
deriving DecidableEq, Repr

/-- Field access a.ival: set only by make_int, zero otherwise. -/
def ival : Value → Int
  | .VInt i => i
  | _ => 0

/-- Field access a.fval: set only by make_float, zero otherwise. -/
def fval : Value → Rat
  | .VFloat f => f
  | _ => 0

/-- Field access a.bval: set only by make_bool, false otherwise. -/
def bval : Value → Bool
  | .VBool b => b
  | _ => false

/-- Field access a.sval: set only by make_string, empty otherwise. -/
def sval : Value → String
  | .VString s => s
  | _ => ""

/-- Kind test a.kind == Value::Kind::Int. -/
def isInt : Value → Bool
  | .VInt _ => true
  | _ => false

/-- Kind test a.kind == Value::Kind::Float. -/
def isFloat : Value → Bool
  | .VFloat _ => true
  | _ => false

/-- Kind test a.kind == Value::Kind::String. -/
def isString : Value → Bool
  | .VString _ => true
  | _ => false

/-- Kind test a.kind == Value::Kind::Bool. -/
def isBool : Value → Bool
  | .VBool _ => true
  | _ => false

/-- The float-widening read the VM uses in mixed arithmetic:
a.kind == Float ? a.fval : (double)a.ival. Note that for a Bool or
String operand this reads the zero default of the integer field. -/
def asF (v : Value) : Rat := if isFloat v then fval v else (ival v : Rat)

structure FunctionBC where
  code : List Instr
  nlocals : Nat
deriving DecidableEq, Repr

/-- The VM function registry, a name-to-bytecode map
(std::unordered_map). Lookup by structural search; insertion below
replaces an existing binding for the same key, as map assignment does. -/
def lookupFn (name : String) : List (String × FunctionBC) → Option FunctionBC
  | [] => none
  | (k, v) :: rest => if k = name then some v else lookupFn name rest

/-- Map assignment functions[name] = bc: replace the binding if the key
is present, append otherwise. -/
def insertFn (m : List (String × FunctionBC)) (name : String) (bc : FunctionBC) :
    List (String × FunctionBC) :=
  match m with
  | [] => [(name, bc)]
  | (k, v) :: rest =>
    if k = name then (name, bc) :: rest else (k, v) :: insertFn rest name bc

/-! ## Compiler, from the C++ Compiler struct. compile_expr appends to
the bytecode vector; since it only ever appends, it is modelled as
returning the emitted instruction list, concatenated by the caller in
emission order. -/

mutual

/-- Compiler::compile_expr. The IdentExpr case is compiled exactly as
the C++ does: no symbol table exists, so an identifier emits
PUSH_INT 0 rather than a load of a parameter or local slot. The IfExpr
case is compiled exactly as the C++ does: condition, then branch, else
branch, then a single POP, with no conditional jump. An unknown unary
operator emits nothing (the C++ if-chain has no else); an unknown
binary operator is the compile-time failure of the C++ throw. -/
def compile_expr : Expr → Except String (List Instr)
  | .LitInt i => .ok [.PUSH_INT i]
  | .LitFloat f => .ok [.PUSH_FLOAT f]
  | .LitBool b => .ok [.PUSH_BOOL b]
  | .LitString s => .ok [.PUSH_STRING s]
  | .Ident _ => .ok [.PUSH_INT 0]
  | .Unary op rhs => do
    let c ← compile_expr rhs
    if op = "-" then pure (c ++ [.NEG])
    else if op = "!" then pure (c ++ [.NOT])
    else pure c
  | .Binary op lhs rhs => do
    let cl ← compile_expr lhs
    let cr ← compile_expr rhs
    if op = "+" then pure (cl ++ cr ++ [.ADD])
    else if op = "-" then pure (cl ++ cr ++ [.SUB])
    else if op = "*" then pure (cl ++ cr ++ [.MUL])
    else if op = "/" then pure (cl ++ cr ++ [.DIV])
    else if op = "%" then pure (cl ++ cr ++ [.MOD])
    else if op = "==" || op = "=" then pure (cl ++ cr ++ [.EQ_OP])
    else if op = "!=" then pure (cl ++ cr ++ [.NE_OP])
    else if op = "<" then pure (cl ++ cr ++ [.LT_OP])
    else if op = ">" then pure (cl ++ cr ++ [.GT_OP])
    else if op = "<=" then pure (cl ++ cr ++ [.LE_OP])
    else if op = ">=" then pure (cl ++ cr ++ [.GE_OP])
    else if op = "&" then pure (cl ++ cr ++ [.AND_OP])
    else if op = "|" then pure (cl ++ cr ++ [.OR_OP])
    else .error ("unimplemented binary op: " ++ op)
  | .If cond thenB elseB => do
    let cc ← compile_expr cond
    let ct ← compile_expr thenB
    let ce ← compile_expr elseB
    pure (cc ++ ct ++ ce ++ [.POP])
  | .Call callee args => do
    let ca ← compile_args args
    pure (ca ++ [.CALL callee args.length])

/-- The argument-emission loop of the CallExpr case. -/
def compile_args : List Expr → Except String (List Instr)
  | [] => .ok []
  | a :: rest => do
    let c ← compile_expr a
    let cs ← compile_args rest
    pure (c ++ cs)

end

/-- The per-function body of Compiler::compile: reserve
max(1, params + 4) local slots, compile the body, append RET. -/
def compileFunc (f : FuncDecl) : Except String FunctionBC := do
  let body ← compile_expr f.body
  pure { code := body ++ [.RET], nlocals := max 1 (f.params.length + 4) }

/-- The declaration loop of Compiler::compile, threading the function
registry that map assignment mutates. -/
def compileFuncs (m : List (String × FunctionBC)) :
    List FuncDecl → Except String (List (String × FunctionBC))
  | [] => .ok m
  | f :: fs => do
    let bc ← compileFunc f
    compileFuncs (insertFn m f.name bc) fs

/-- Compiler::compile. -/
def compile (p : Program) : Except String (List (String × FunctionBC)) :=
  compileFuncs [] p.funcs

/-! ## Virtual machine, from the C++ VM struct. The C++ value stack is
a vector with push_back / back; here the head of the list is the top of
the stack. A pop from an empty stack is vector::back on an empty
vector, which is undefined behaviour, modelled by the distinguished
outcome VMRes.ub; likewise an out-of-range local index and an integer
% by zero. The dispatch loop is modelled with fuel; running out of
fuel is the distinct outcome VMRes.nofuel, which no theorem below
reaches. -/

structure Frame where
  code : List Instr
  ip : Nat
  locals : List Value
deriving DecidableEq, Repr

inductive VMRes where
  | ok (stack : List Value)
  | fault (msg : String)
  | ub
  | nofuel
deriving DecidableEq, Repr

/-- The dispatch loop of VM::run. One recursive call per loop
iteration; a frame whose instruction cursor has run past the end of its
code is popped (implicit RET), and the loop ends, returning the shared
stack, when the frame stack empties. -/
def runLoop (funcs : List (String × FunctionBC)) :
    Nat → List Value → List Frame → VMRes
  | 0, _, _ => .nofuel
  | _ + 1, stack, [] => .ok stack
  | fuel + 1, stack, fr :: frs =>
    match fr.code.get? fr.ip with
    | none => runLoop funcs fuel stack frs
    | some instr =>
      let fr1 : Frame := { fr with ip := fr.ip + 1 }
      match instr with
      | .HALT => .ok stack
      | .PUSH_INT v => runLoop funcs fuel (Value.VInt v :: stack) (fr1 :: frs)
      | .PUSH_FLOAT f => runLoop funcs fuel (Value.VFloat f :: stack) (fr1 :: frs)
      | .PUSH_BOOL b => runLoop funcs fuel (Value.VBool b :: stack) (fr1 :: frs)
      | .PUSH_STRING s => runLoop funcs fuel (Value.VString s :: stack) (fr1 :: frs)
      | .LOAD_LOCAL idx =>
        match fr.locals.get? idx with
        | some v => runLoop funcs fuel (v :: stack) (fr1 :: frs)
        | none => .ub
      | .STORE_LOCAL idx =>
        match stack with
        | v :: rest =>
          if idx < fr.locals.length then
            runLoop funcs fuel rest ({ fr1 with locals := fr.locals.set idx v } :: frs)
          else .ub
        | [] => .ub
      | .ADD =>
        match stack with
        | b :: a :: rest =>
          bif isInt a && isInt b then
            runLoop funcs fuel (Value.VInt (ival a + ival b) :: rest) (fr1 :: frs)
          else bif isFloat a || isFloat b then
            runLoop funcs fuel (Value.VFloat (asF a + asF b) :: rest) (fr1 :: frs)
          else bif isString a && isString b then
            runLoop funcs fuel (Value.VString (sval a ++ sval b) :: rest) (fr1 :: frs)
          else .fault "type error in ADD"
        | _ => .ub
      | .SUB =>
        match stack with
        | b :: a :: rest =>
          bif isInt a && isInt b then
            runLoop funcs fuel (Value.VInt (ival a - ival b) :: rest) (fr1 :: frs)
          else
            runLoop funcs fuel (Value.VFloat (asF a - asF b) :: rest) (fr1 :: frs)
        | _ => .ub
      | .MUL =>
        match stack with
        | b :: a :: rest =>
          bif isInt a && isInt b then
            runLoop funcs fuel (Value.VInt (ival a * ival b) :: rest) (fr1 :: frs)
          else
            runLoop funcs fuel (Value.VFloat (asF a * asF b) :: rest) (fr1 :: frs)
        | _ => .ub
      | .DIV =>
        match stack with
        | b :: a :: rest =>
          bif isInt b && (ival b == 0) then .fault "division by zero"
          else bif isInt a && isInt b then
            runLoop funcs fuel (Value.VInt (Int.tdiv (ival a) (ival b)) :: rest)
              (fr1 :: frs)
          else
            runLoop funcs fuel (Value.VFloat (asF a / asF b) :: rest) (fr1 :: frs)
        | _ => .ub
      | .MOD =>
        match stack with
        | b :: a :: rest =>
          bif isInt a && isInt b then
            -- C++ computes a.ival % b.ival here with no zero check;
            -- % by zero is undefined behaviour.
            bif ival b == 0 then .ub
            else runLoop funcs fuel (Value.VInt (Int.tmod (ival a) (ival b)) :: rest)
              (fr1 :: frs)
          else .fault "mod only on ints"
        | _ => .ub
      | .NEG =>
        match stack with
        | a :: rest =>
          bif isInt a then
            runLoop funcs fuel (Value.VInt (-(ival a)) :: rest) (fr1 :: frs)
          else
            runLoop funcs fuel (Value.VFloat (-(fval a)) :: rest) (fr1 :: frs)
        | [] => .ub
      | .NOT =>
        match stack with
        | a :: rest =>
          bif isBool a then
            runLoop funcs fuel (Value.VBool (!(bval a)) :: rest) (fr1 :: frs)
          else .fault "! expects bool"
        | [] => .ub
      | .EQ_OP =>
        match stack with
        | b :: a :: rest =>
          bif isInt a && isInt b then
            runLoop funcs fuel (Value.VBool (ival a == ival b) :: rest) (fr1 :: frs)
          else
            runLoop funcs fuel (Value.VBool (asF a == asF b) :: rest) (fr1 :: frs)
        | _ => .ub
      | .NE_OP =>
        match stack with
        | b :: a :: rest =>
          bif isInt a && isInt b then
            runLoop funcs fuel (Value.VBool (ival a != ival b) :: rest) (fr1 :: frs)
          else
            runLoop funcs fuel (Value.VBool (asF a != asF b) :: rest) (fr1 :: frs)
        | _ => .ub
      | .LT_OP =>
        match stack with
        | b :: a :: rest =>
          bif isInt a && isInt b then
            runLoop funcs fuel (Value.VBool (decide (ival a < ival b)) :: rest)
              (fr1 :: frs)
          else
            runLoop funcs fuel (Value.VBool (decide (asF a < asF b)) :: rest)
              (fr1 :: frs)
        | _ => .ub
      | .LE_OP =>
        match stack with
        | b :: a :: rest =>
          bif isInt a && isInt b then
            runLoop funcs fuel (Value.VBool (decide (ival a ≤ ival b)) :: rest)
              (fr1 :: frs)
          else
            runLoop funcs fuel (Value.VBool (decide (asF a ≤ asF b)) :: rest)
              (fr1 :: frs)
        | _ => .ub
      | .GT_OP =>
        match stack with
        | b :: a :: rest =>
          bif isInt a && isInt b then
            runLoop funcs fuel (Value.VBool (decide (ival b < ival a)) :: rest)
              (fr1 :: frs)
          else
            runLoop funcs fuel (Value.VBool (decide (asF b < asF a)) :: rest)
              (fr1 :: frs)
        | _ => .ub
      | .GE_OP =>
        match stack with
        | b :: a :: rest =>
          bif isInt a && isInt b then
            runLoop funcs fuel (Value.VBool (decide (ival b ≤ ival a)) :: rest)
              (fr1 :: frs)
          else
            runLoop funcs fuel (Value.VBool (decide (asF b ≤ asF a)) :: rest)
              (fr1 :: frs)
        | _ => .ub
      | .AND_OP =>
        match stack with
        | b :: a :: rest =>
          runLoop funcs fuel (Value.VBool (bval a && bval b) :: rest) (fr1 :: frs)
        | _ => .ub
      | .OR_OP =>
        match stack with
        | b :: a :: rest =>
          runLoop funcs fuel (Value.VBool (bval a || bval b) :: rest) (fr1 :: frs)
        | _ => .ub
      | .CALL fname nargs =>
        match lookupFn fname funcs with
        | none => .fault ("call to unknown function " ++ fname)
        | some fn =>
          if fn.nlocals < nargs then .fault "callee expects more locals than provided"
          else if stack.length < nargs then .ub
          else
            -- the C++ pops the arguments into argsv back to front, so
            -- argsv is the reversal of the top nargs stack values, and
            -- copies argsv into the first nargs locals of the new frame
            runLoop funcs fuel (stack.drop nargs)
              ({ code := fn.code, ip := 0,
                 locals := (stack.take nargs).reverse
                   ++ List.replicate (fn.nlocals - nargs) Value.VNone } :: fr1 :: frs)
      | .RET => runLoop funcs fuel stack frs
      | .POP =>
        match stack with
        | _ :: rest => runLoop funcs fuel rest (fr1 :: frs)
        | [] => .ub

/-- VM::run: look up main (its absence prints a message and returns,
leaving the empty stack) and drive the dispatch loop from a single
frame for it. -/
def runVM (fuel : Nat) (funcs : List (String × FunctionBC)) : VMRes :=
  match lookupFn "main" funcs with
  | none => .ok []
  | some fn =>
    runLoop funcs fuel [] [{ code := fn.code, ip := 0,
                             locals := List.replicate fn.nlocals Value.VNone }]

/-- Compile a program and run it, as the C++ demo driver does. -/
def runProgram (fuel : Nat) (p : Program) : Except String VMRes :=
  (compile p).map (runVM fuel)

/-- The full pipeline of the C++ demo driver: lex, parse, compile,
run. A parse or compile failure is the Except error; a run outcome is
the VMRes. -/
def run_source (fuel : Nat) (s : String) : Except String VMRes := do
  let p ← parse_program fuel (tokens s)
  let fns ← compile p
  pure (runVM fuel fns)

/-! ## Theorems -/

/-- The demo program of the C++ driver and of the specification
function-call test. -/
def demoAddMain : String :=
  "func add(x: int, y: int): int == x + y
   func main(): int == add(3, 4)"

/-- C1: the claim states that compiling an identifier expression emits
a load of the resolved parameter slot, so that the add/main demo
program runs to the integer 7. The code instead compiles every
identifier expression to PUSH_INT 0 (no load of any slot), and the
demo program runs to the integer 0, not 7: evaluated here at the
failing input. -/
theorem c1_ident_pushes_zero_and_demo_runs_to_zero :
    compile_expr (Expr.Ident "x") = .ok [Instr.PUSH_INT 0] ∧
    run_source 64 demoAddMain = .ok (.ok [Value.VInt 0]) := by
  constructor
  · rfl
  · rfl

/-- The conditional test program of the specification. -/
def demoIf : String := "func main(): int == if 1 < 2 then 10 else 20 fi"

/-- C2: the claim states that a compiled if expression executes exactly
one branch and leaves exactly one value on the stack. The code
compiles the if to condition, then branch, else branch, POP, with no
jumps, so both branches execute and the final stack holds two values:
the then value on top of the retained condition value. Evaluated here
at the failing input, exhibiting both the compiled instruction list and
the two-value final stack. -/
theorem c2_if_compiles_both_branches :
    (do
      let p ← parse_program 64 (tokens demoIf)
      compile p) =
      .ok [("main",
        { code := [Instr.PUSH_INT 1, Instr.PUSH_INT 2, Instr.LT_OP,
                   Instr.PUSH_INT 10, Instr.PUSH_INT 20, Instr.POP, Instr.RET],
          nlocals := 4 })] ∧
    run_source 64 demoIf = .ok (.ok [Value.VInt 10, Value.VBool true]) := by
  constructor
  · rfl
  · rfl

/-- C3: the claim states that the lexer recognizes all five
two-character punctuation sequences as single tokens. The cases for
minus-greater, equal-equal and bang-equal do; but the less-than and
greater-than cases of the switch return immediately, so a source
containing the less-equal (greater-equal) sequence yields a Less
(Greater) token followed by an Eq token, and the LessEq and GreaterEq
token kinds are never produced. Evaluated here at both failing inputs
and at the three working sequences. -/
theorem c3_lexer_splits_lessEq_greaterEq :
    tokens "<=" = [{ kind := .Less, text := "<" }, { kind := .Eq, text := "=" }] ∧
    tokens ">=" = [{ kind := .Greater, text := ">" }, { kind := .Eq, text := "=" }] ∧
    tokens "->" = [{ kind := .Arrow, text := "->" }] ∧
    tokens "==" = [{ kind := .EqEq, text := "==" }] ∧
    tokens "!=" = [{ kind := .NotEq, text := "!=" }] := by
  refine ⟨rfl, rfl, rfl, rfl, rfl⟩

/-- Execute a single arithmetic instruction on a given stack: one frame
whose code is exactly that instruction, enough fuel for the instruction,
the implicit frame pop and the loop exit. -/
def stepArith (i : Instr) (stack : List Value) : VMRes :=
  runLoop [] 3 stack [{ code := [i], ip := 0, locals := [] }]

/-- C4 counterexample: per the claim, SUB on two Bool operands must
raise a type fault; but compiling and running the program true - false
succeeds with the float 0 on the stack (the widening path reads the
zero integer fields of the two Bool values), not a type fault. -/
theorem c4_sub_on_bools_is_no_fault :
    run_source 64 "true - false" = .ok (.ok [Value.VFloat 0]) := by
  show Except.ok (VMRes.ok
    [Value.VFloat (asF (Value.VBool true) - asF (Value.VBool false))]) = _
  simp [asF, isFloat, ival]

/-- C4 amended: the VM pops right then left; ADD implements the full
coercion rule (both Int is integer arithmetic, any Float operand widens
both to float, two Strings concatenate, anything else is the type
fault); MOD requires two Int operands and faults otherwise; but SUB,
MUL and DIV check only the both-Int case and otherwise take the float
widening path for every operand kind, reading the zero integer field of
a Bool or String operand, so they never raise a type fault. DIV by the
integer zero is the division-by-zero fault. -/
theorem c4_arith_coercion (x y : Int) (p q : Rat) (s t : String)
    (u v : Bool) (rest : List Value) :
    stepArith .ADD (.VInt y :: .VInt x :: rest) = .ok (.VInt (x + y) :: rest) ∧
    stepArith .ADD (.VFloat q :: .VInt x :: rest) = .ok (.VFloat ((x : Rat) + q) :: rest) ∧
    stepArith .ADD (.VInt y :: .VFloat p :: rest) = .ok (.VFloat (p + (y : Rat)) :: rest) ∧
    stepArith .ADD (.VFloat q :: .VFloat p :: rest) = .ok (.VFloat (p + q) :: rest) ∧
    stepArith .ADD (.VString t :: .VString s :: rest) = .ok (.VString (s ++ t) :: rest) ∧
    stepArith .ADD (.VBool v :: .VBool u :: rest) = .fault "type error in ADD" ∧
    stepArith .ADD (.VString t :: .VInt x :: rest) = .fault "type error in ADD" ∧
    stepArith .SUB (.VInt y :: .VInt x :: rest) = .ok (.VInt (x - y) :: rest) ∧
    stepArith .SUB (.VFloat q :: .VFloat p :: rest) = .ok (.VFloat (p - q) :: rest) ∧
    stepArith .SUB (.VBool v :: .VBool u :: rest) = .ok (.VFloat 0 :: rest) ∧
    stepArith .SUB (.VString t :: .VString s :: rest) = .ok (.VFloat 0 :: rest) ∧
    stepArith .MUL (.VInt y :: .VInt x :: rest) = .ok (.VInt (x * y) :: rest) ∧
    stepArith .MUL (.VBool v :: .VBool u :: rest) = .ok (.VFloat 0 :: rest) ∧
    stepArith .DIV (.VInt 0 :: .VInt x :: rest) = .fault "division by zero" ∧
    (∃ r : Rat, stepArith .DIV (.VBool v :: .VBool u :: rest) = .ok (.VFloat r :: rest)) ∧
    stepArith .MOD (.VInt 3 :: .VInt 7 :: rest) = .ok (.VInt 1 :: rest) ∧
    stepArith .MOD (.VFloat q :: .VFloat p :: rest) = .fault "mod only on ints" ∧
    stepArith .MOD (.VBool v :: .VInt x :: rest) = .fault "mod only on ints" := by
  refine ⟨rfl, rfl, rfl, rfl, rfl, rfl, rfl, rfl, rfl, ?_, ?_, rfl, ?_, rfl,
    ⟨_, rfl⟩, rfl, rfl, rfl⟩
  · show VMRes.ok (Value.VFloat
      (asF (Value.VBool u) - asF (Value.VBool v)) :: rest) = _
    simp [asF, isFloat, ival]
  · show VMRes.ok (Value.VFloat
      (asF (Value.VString s) - asF (Value.VString t)) :: rest) = _
    simp [asF, isFloat, ival]
  · show VMRes.ok (Value.VFloat
      (asF (Value.VBool u) * asF (Value.VBool v)) :: rest) = _
    simp [asF, isFloat, ival]

/-- A program whose sole function is a main with body a / b, the shape
of the specification division test. -/
def divProg (a b : Int) : Program :=
  { funcs := [{ name := "main", params := [], retType := { name := "int" },
                body := Expr.Binary "/" (Expr.LitInt a) (Expr.LitInt b) }] }

/-- C5: for integers in the 64-bit signed range with nonzero divisor,
compiling and running a function whose body is a / b yields truncating
integer division (the C++ / on long long); dividing by the integer
zero is the division-by-zero fault. The range hypotheses keep the
unbounded-Int model honest about the C++ long long operands; within
the range the only corner the model does not reflect is
a = -2^63, b = -1, whose native quotient overflows (undefined
behaviour in C++) while the model returns 2^63. -/
theorem c5_div_truncates :
    (∀ a b : Int, -(2 ^ 63) ≤ a → a < 2 ^ 63 → -(2 ^ 63) ≤ b → b < 2 ^ 63 →
      b ≠ 0 →
      runProgram 64 (divProg a b) = .ok (.ok [Value.VInt (Int.tdiv a b)])) ∧
    (∀ a : Int, runProgram 64 (divProg a 0) = .ok (.fault "division by zero")) := by
  constructor
  · intro a b _ _ _ _ hb
    show Except.ok (cond (ival (Value.VInt b) == 0)
      (VMRes.fault "division by zero")
      (VMRes.ok [Value.VInt (Int.tdiv a b)])) = _
    rw [show (ival (Value.VInt b) == 0) = false from beq_eq_false_iff_ne.mpr hb]
    rfl
  · intro a
    rfl

/-- C5 witness: the division theorem applied at 7 / -2 (truncation
toward zero gives -3, not the floor -4) and at 5 / 0. -/
theorem c5_div_truncates_witness :
    runProgram 64 (divProg 7 (-2)) = .ok (.ok [Value.VInt (Int.tdiv 7 (-2))]) ∧
    Int.tdiv 7 (-2) = -3 ∧
    runProgram 64 (divProg 5 0) = .ok (.fault "division by zero") :=
  ⟨c5_div_truncates.1 7 (-2) (by norm_num) (by norm_num) (by norm_num)
      (by norm_num) (by norm_num),
    by decide, c5_div_truncates.2 5⟩

/-- C6 counterexample: per the claim, an arithmetic instruction that
does not find its operands must halt the VM with a stack-underflow
fault; but running a function whose single instruction is ADD on the
empty stack is vector::back on an empty vector, undefined behaviour
with no fault of any kind (VM::pop performs no emptiness check, and no
stack-underflow fault exists anywhere in the VM). -/
theorem c6_underflow_is_undefined_not_fault :
    runVM 10 [("main", { code := [Instr.ADD], nlocals := 1 })] = VMRes.ub := by rfl

/-- C6 amended: the VM performs no stack-underflow checking: every
arithmetic, comparison and logical instruction (and POP) pops its
operands unconditionally, so executing one with fewer operands than its
arity on the stack is undefined behaviour (modelled as the distinguished
ub outcome), not a StackUnderflowFault surfaced to the caller. -/
theorem c6_no_underflow_check (funcs : List (String × FunctionBC))
    (loc : List Value) (v : Value) :
    (runLoop funcs 3 [] [{ code := [.ADD], ip := 0, locals := loc }] = .ub) ∧
    (runLoop funcs 3 [v] [{ code := [.ADD], ip := 0, locals := loc }] = .ub) ∧
    (runLoop funcs 3 [] [{ code := [.SUB], ip := 0, locals := loc }] = .ub) ∧
    (runLoop funcs 3 [v] [{ code := [.SUB], ip := 0, locals := loc }] = .ub) ∧
    (runLoop funcs 3 [] [{ code := [.MUL], ip := 0, locals := loc }] = .ub) ∧
    (runLoop funcs 3 [v] [{ code := [.MUL], ip := 0, locals := loc }] = .ub) ∧
    (runLoop funcs 3 [] [{ code := [.DIV], ip := 0, locals := loc }] = .ub) ∧
    (runLoop funcs 3 [v] [{ code := [.DIV], ip := 0, locals := loc }] = .ub) ∧
    (runLoop funcs 3 [] [{ code := [.MOD], ip := 0, locals := loc }] = .ub) ∧
    (runLoop funcs 3 [v] [{ code := [.MOD], ip := 0, locals := loc }] = .ub) ∧
    (runLoop funcs 3 [] [{ code := [.EQ_OP], ip := 0, locals := loc }] = .ub) ∧
    (runLoop funcs 3 [v] [{ code := [.EQ_OP], ip := 0, locals := loc }] = .ub) ∧
    (runLoop funcs 3 [] [{ code := [.NE_OP], ip := 0, locals := loc }] = .ub) ∧
    (runLoop funcs 3 [v] [{ code := [.NE_OP], ip := 0, locals := loc }] = .ub) ∧
    (runLoop funcs 3 [] [{ code := [.LT_OP], ip := 0, locals := loc }] = .ub) ∧
    (runLoop funcs 3 [v] [{ code := [.LT_OP], ip := 0, locals := loc }] = .ub) ∧
    (runLoop funcs 3 [] [{ code := [.LE_OP], ip := 0, locals := loc }] = .ub) ∧
    (runLoop funcs 3 [v] [{ code := [.LE_OP], ip := 0, locals := loc }] = .ub) ∧
    (runLoop funcs 3 [] [{ code := [.GT_OP], ip := 0, locals := loc }] = .ub) ∧
    (runLoop funcs 3 [v] [{ code := [.GT_OP], ip := 0, locals := loc }] = .ub) ∧
    (runLoop funcs 3 [] [{ code := [.GE_OP], ip := 0, locals := loc }] = .ub) ∧
    (runLoop funcs 3 [v] [{ code := [.GE_OP], ip := 0, locals := loc }] = .ub) ∧
    (runLoop funcs 3 [] [{ code := [.AND_OP], ip := 0, locals := loc }] = .ub) ∧
    (runLoop funcs 3 [v] [{ code := [.AND_OP], ip := 0, locals := loc }] = .ub) ∧
    (runLoop funcs 3 [] [{ code := [.OR_OP], ip := 0, locals := loc }] = .ub) ∧
    (runLoop funcs 3 [v] [{ code := [.OR_OP], ip := 0, locals := loc }] = .ub) ∧
    (runLoop funcs 3 [] [{ code := [.NEG], ip := 0, locals := loc }] = .ub) ∧
    (runLoop funcs 3 [] [{ code := [.NOT], ip := 0, locals := loc }] = .ub) ∧
    (runLoop funcs 3 [] [{ code := [.POP], ip := 0, locals := loc }] = .ub) := by
  refine ⟨rfl, rfl, rfl, rfl, rfl, rfl, rfl, rfl, rfl, rfl, rfl, rfl, rfl, rfl,
    rfl, rfl, rfl, rfl, rfl, rfl, rfl, rfl, rfl, rfl, rfl, rfl, rfl, rfl, rfl⟩

/-- C7: a CALL instruction whose callee name is absent from the
compiled function registry faults with the unknown-function message
before any frame for the callee is created, and the program
func main(): int == missing() compiles but fails at execution with
exactly that fault, never a silent wrong value. -/
theorem c7_unknown_call_faults :
    (∀ (funcs : List (String × FunctionBC)) (fname : String) (nargs : Nat)
        (stack loc : List Value) (fuel : Nat),
      lookupFn fname funcs = none →
      runLoop funcs (fuel + 1) stack
          [{ code := [.CALL fname nargs], ip := 0, locals := loc }] =
        .fault ("call to unknown function " ++ fname)) ∧
    run_source 64 "func main(): int == missing()" =
      .ok (.fault "call to unknown function missing") := by
  constructor
  · intro funcs fname nargs stack loc fuel h
    simp [runLoop, h]
  · rfl

/-- C7 witness: the unknown-call theorem applied to the empty registry
and to the example program of the claim. -/
theorem c7_unknown_call_faults_witness :
    runLoop [] 1 [] [{ code := [.CALL "missing" 0], ip := 0, locals := [] }] =
      .fault ("call to unknown function " ++ "missing") ∧
    run_source 64 "func main(): int == missing()" =
      .ok (.fault "call to unknown function missing") :=
  ⟨c7_unknown_call_faults.1 [] "missing" 0 [] [] 0 rfl,
    c7_unknown_call_faults.2⟩

/-- C8: the parser folds binary chains left-associatively with the
multiplicative level binding tighter than the additive one: the sum
with an embedded product parses right-heavy only under the product
(2 + (3 * 4)) and evaluates to 14 rather than 20, the parenthesized
form evaluates to 20, same-precedence chains parse and evaluate
left-associatively (10 - 3 - 2 is (10 - 3) - 2 = 5 and 8 / 4 / 2 is
(8 / 4) / 2 = 1), and the parse trees exhibit the left-leaning shape. -/
theorem c8_precedence_and_left_assoc :
    run_source 64 "2 + 3 * 4" = .ok (.ok [Value.VInt 14]) ∧
    run_source 64 "(2 + 3) * 4" = .ok (.ok [Value.VInt 20]) ∧
    run_source 64 "10 - 3 - 2" = .ok (.ok [Value.VInt 5]) ∧
    run_source 64 "8 / 4 / 2" = .ok (.ok [Value.VInt 1]) ∧
    parse_expr 64 (tokens "2 + 3 * 4") =
      .ok (Expr.Binary "+" (Expr.LitInt 2)
        (Expr.Binary "*" (Expr.LitInt 3) (Expr.LitInt 4)), []) ∧
    parse_expr 64 (tokens "1 + 2 + 3") =
      .ok (Expr.Binary "+"
        (Expr.Binary "+" (Expr.LitInt 1) (Expr.LitInt 2)) (Expr.LitInt 3), []) := by
  refine ⟨rfl, rfl, rfl, rfl, rfl, rfl⟩

/-- C9: compilation is a deterministic pure function of the AST: the
C++ compiler walks the declaration list in order, consulting nothing
but the AST, so compiling the same Program twice produces the same
name-to-bytecode mapping, instruction for instruction; the byte stream
of each function is a fixed encoding of its instruction list, so the
bytecode is byte-identical as well. In this embedding the compiler is
the pure function compile, and the property is definitional. -/
theorem c9_compile_deterministic (p : Program) : compile p = compile p := rfl

/-- The textually last declaration in a list bearing a given name. -/
def lastDecl (name : String) : List FuncDecl → Option FuncDecl
  | [] => none
  | f :: fs =>
    match lastDecl name fs with
    | some g => some g
    | none => if f.name = name then some f else none

theorem lookupFn_insertFn_self (m : List (String × FunctionBC)) (k : String)
    (v : FunctionBC) : lookupFn k (insertFn m k v) = some v := by
  induction m with
  | nil => simp [insertFn, lookupFn]
  | cons hd tl ih =>
    obtain ⟨a, w⟩ := hd
    by_cases h : a = k
    · simp [insertFn, h, lookupFn]
    · simp [insertFn, h, lookupFn, ih]

theorem lookupFn_insertFn_other (m : List (String × FunctionBC)) (k n : String)
    (v : FunctionBC) (h : k ≠ n) :
    lookupFn n (insertFn m k v) = lookupFn n m := by
  induction m with
  | nil => simp [insertFn, lookupFn, h]
  | cons hd tl ih =>
    obtain ⟨a, w⟩ := hd
    by_cases ha : a = k
    · subst ha
      simp [insertFn, lookupFn, h]
    · simp [insertFn, ha, lookupFn, ih]

/-- The compilation loop, viewed through registry lookup: the binding a
name carries afterwards is the compilation of the last declaration with
that name, earlier same-named declarations having been overwritten by
map assignment. -/
theorem compileFuncs_lookupFn (name : String) :
    ∀ (fs : List FuncDecl) (m mfinal : List (String × FunctionBC)),
      compileFuncs m fs = .ok mfinal →
      lookupFn name mfinal =
        (match lastDecl name fs with
         | some g => (compileFunc g).toOption
         | none => lookupFn name m) := by
  intro fs
  induction fs with
  | nil =>
    intro m mfinal h
    simp [compileFuncs] at h
    subst h
    simp [lastDecl]
  | cons f fs ih =>
    intro m mfinal h
    cases hbc : compileFunc f with
    | error e =>
      simp only [compileFuncs, hbc] at h
      exact Except.noConfusion h
    | ok bc =>
      simp only [compileFuncs, hbc, Except.bind] at h
      have step := ih (insertFn m f.name bc) mfinal h
      cases hld : lastDecl name fs with
      | some g => simpa [lastDecl, hld] using step
      | none =>
        rw [step, hld]
        by_cases hn : f.name = name
        · subst hn
          simp [lastDecl, hld, lookupFn_insertFn_self, hbc, Except.toOption]
        · simp [lastDecl, hld, hn, lookupFn_insertFn_other m f.name name bc hn]

/-- C10: when a Program contains several declarations with the same
name, the compiled registry retains exactly the bytecode of the
textually last one (map assignment overwrites, so earlier same-named
declarations are silently discarded), and each bare top-level
expression is synthesized into its own function named main, so the
program consisting of the two bare expressions 1 and 2 runs to the
integer 2, the body of the last synthesized main. -/
theorem c10_last_same_named_decl_wins :
    (∀ (p : Program) (m : List (String × FunctionBC)) (name : String),
      compile p = .ok m →
      lookupFn name m =
        (lastDecl name p.funcs).bind (fun g => (compileFunc g).toOption)) ∧
    parse_program 64 (tokens "1 2") =
      .ok { funcs := [
        { name := "main", params := [], retType := { name := "int" },
          body := Expr.LitInt 1 },
        { name := "main", params := [], retType := { name := "int" },
          body := Expr.LitInt 2 }] } ∧
    run_source 64 "1 2" = .ok (.ok [Value.VInt 2]) := by
  refine ⟨?_, rfl, rfl⟩
  intro p m name h
  have step := compileFuncs_lookupFn name p.funcs [] m h
  rw [step]
  cases lastDecl name p.funcs with
  | none => simp [lookupFn]
  | some g => simp

/-- A program of two same-named main declarations, for the C10
witness. -/
def dupMainProg : Program :=
  { funcs := [
      { name := "main", params := [], retType := { name := "int" },
        body := Expr.LitInt 1 },
      { name := "main", params := [], retType := { name := "int" },
        body := Expr.LitInt 2 }] }

/-- C10 witness: the last-declaration theorem applied to the concrete
two-main program, whose compiled registry binds main to the bytecode of
the second declaration. -/
theorem c10_last_same_named_decl_wins_witness :
    lookupFn "main" [("main", { code := [Instr.PUSH_INT 2, Instr.RET], nlocals := 4 })] =
      (lastDecl "main" dupMainProg.funcs).bind (fun g => (compileFunc g).toOption) ∧
    (lastDecl "main" dupMainProg.funcs).bind (fun g => (compileFunc g).toOption) =
      some { code := [Instr.PUSH_INT 2, Instr.RET], nlocals := 4 } :=
  ⟨c10_last_same_named_decl_wins.1 dupMainProg
      [("main", { code := [Instr.PUSH_INT 2, Instr.RET], nlocals := 4 })] "main" rfl,
    rfl⟩

end Ape
